import Mathlib

/-!
Verification of the barcode/gene selection, prior-estimation and result
serialization core of a single-cell count-matrix pipeline
(cellbender/remove_background/data/dataset.py).

A count matrix is embedded as a `List (List Nat)`: rows are barcodes,
columns are genes, entries are UMI counts.  Floating-point statistics that
the selection logic merely thresholds on are carried as exact rationals or
abstracted as parameters, as noted at each definition.
-/

namespace CellBender

/-- Per-barcode total UMI counts, matrix.sum(axis=1) (dataset.py line 145). -/
def umiCounts (matrix : List (List Nat)) : List Nat :=
  matrix.map List.sum

/-- Total count of gene column j, one entry of matrix.sum(axis=0) (line 160). -/
def colSum (matrix : List (List Nat)) (j : Nat) : Nat :=
  (matrix.map (fun row => row.getD j 0)).sum

/-- Number of gene columns, matrix.shape[1]. -/
def numGenes (matrix : List (List Nat)) : Nat :=
  (matrix.headD []).length

/-- Ascending (count, index) lexicographic order on barcode indices, used to
model np.argsort(umi_counts) (line 146): index i precedes index j when its
count is smaller, equal counts resolved by original position. -/
def rankLE (counts : List Nat) (i j : Nat) : Prop :=
  counts.getD i 0 < counts.getD j 0 ∨ (counts.getD i 0 = counts.getD j 0 ∧ i ≤ j)

instance (counts : List Nat) : DecidableRel (rankLE counts) := fun _ _ =>
  inferInstanceAs (Decidable (_ ∨ _))

instance (counts : List Nat) : IsTotal Nat (rankLE counts) :=
  ⟨fun i j => by simp only [rankLE]; omega⟩

instance (counts : List Nat) : IsTrans Nat (rankLE counts) :=
  ⟨fun i j k hij hjk => by simp only [rankLE] at *; omega⟩

instance (counts : List Nat) : IsAntisymm Nat (rankLE counts) :=
  ⟨fun i j hij hji => by simp only [rankLE] at *; omega⟩

/-- The reversed relation: descending count, equal counts by descending
original position. -/
def rankGE (counts : List Nat) (i j : Nat) : Prop :=
  rankLE counts j i

instance (counts : List Nat) : DecidableRel (rankGE counts) := fun _ _ =>
  inferInstanceAs (Decidable (rankLE _ _ _))

instance (counts : List Nat) : IsTotal Nat (rankGE counts) :=
  ⟨fun i j => (IsTotal.total (r := rankLE counts) i j).symm⟩

instance (counts : List Nat) : IsTrans Nat (rankGE counts) :=
  ⟨fun _ _ _ hij hjk => IsTrans.trans (r := rankLE counts) _ _ _ hjk hij⟩

instance (counts : List Nat) : IsAntisymm Nat (rankGE counts) :=
  ⟨fun _ _ hij hji => IsAntisymm.antisymm (r := rankLE counts) _ _ hji hij⟩

/-- np.argsort(umi_counts)[::-1] (line 146): the ascending stable argsort of
the per-barcode totals, reversed.  np.argsort is modelled as the
deterministic sort of indices 0..n-1 by the ascending (count, index)
lexicographic key. -/
def umiCountOrder (counts : List Nat) : List Nat :=
  (List.insertionSort (rankLE counts) (List.range counts.length)).reverse

theorem umiCountOrder_perm (counts : List Nat) :
    (umiCountOrder counts).Perm (List.range counts.length) :=
  (List.reverse_perm _).trans (List.perm_insertionSort _ _)

theorem umiCountOrder_nodup (counts : List Nat) : (umiCountOrder counts).Nodup :=
  (umiCountOrder_perm counts).symm.nodup (List.nodup_range _)

/-- Number of barcodes with a nonzero total, np.sum(umi_counts > 0)
(line 153). -/
def numNonzeroBarcodes (counts : List Nat) : Nat :=
  counts.countP (fun c => decide (0 < c))

/-- The effective low-UMI cutoff (lines 194-196):
max(low_UMI_count_cutoff, int(empty_counts * 0.8)), where int truncates the
product of the nonnegative integer prior with 0.8, modelled exactly as
8 * e / 10 in integer arithmetic. -/
def effectiveCutoff (lowCutoff emptyCountsPrior : Nat) : Nat :=
  max lowCutoff (emptyCountsPrior * 8 / 10)

/-- np.sum(umi_counts > low_UMI_count_cutoff) (lines 201-202): the number of
barcodes whose total strictly exceeds the cutoff. -/
def numBarcodesAboveCutoff (counts : List Nat) (cutoff : Nat) : Nat :=
  counts.countP (fun c => decide (cutoff < c))

/-- num = max(0, min(num_transition_barcodes, M - cell_barcodes.size))
(lines 205-207); the inner subtraction is on Python integers and may be
negative, so it is taken in ℤ and clamped by toNat. -/
def transitionCount (numTransition M nCells : Nat) : Nat :=
  (min (numTransition : Int) ((M : Int) - (nCells : Int))).toNat

/-- Barcode selection of Dataset._trim_dataset_for_analysis (lines 143-246)
as a function of the per-barcode totals; returns the pair
(analyzed_barcode_inds, empty_barcode_inds).  nCells clamps the prior to the
nonzero barcodes (line 154).  The simple branch (lines 179-182) takes the
top nCells ranked barcodes and leaves the initial empty set (line 67).
The ambient branch (lines 187-244) runs inside a try block whose
IndexError handler only logs; fault = true models a fault there, retaining
the pre-branch defaults arange(matrix.shape[0]) (line 149) and the empty
initial empty_barcode_inds (line 67). -/
def selectBarcodes (counts : List Nat)
    (nCellsPrior lowCutoff numTransition emptyCountsPrior : Nat)
    (simple : Bool) (fault : Bool) : List Nat × List Nat :=
  let order := umiCountOrder counts
  let nCells := min nCellsPrior (numNonzeroBarcodes counts)
  if simple then
    (order.take nCells, [])
  else if fault then
    (List.range counts.length, [])
  else
    let cutoff := effectiveCutoff lowCutoff emptyCountsPrior
    let M := numBarcodesAboveCutoff counts cutoff
    let num := transitionCount numTransition M nCells
    let cellBarcodes := order.take nCells
    let transitionBarcodes := (order.drop nCells).take num
    let analyzed := cellBarcodes ++ transitionBarcodes
    let empty := if num < numTransition then ([] : List Nat)
      else (order.drop (nCells + num)).take (M - (nCells + num))
    (analyzed, empty)

/-- C1: on raw totals [1000, 900, 50, 40, 5] with a low-count threshold of 30
(the empirical empty-count refinement not raising it), nCellsPrior = 2 and
numTransitionBarcodes = 1, the ambient-aware selection ranks the barcodes as
[0, 1, 2, 3, 4], counts M = 4 barcodes above the cutoff, uses a transition
count of 1, and returns analyzed = [0, 1, 2] and empty = [3], with barcode 4
in neither set. -/
theorem scenario_selection_spec (emptyCountsPrior : Nat)
    (h : effectiveCutoff 30 emptyCountsPrior = 30) :
    umiCountOrder [1000, 900, 50, 40, 5] = [0, 1, 2, 3, 4]
    ∧ numBarcodesAboveCutoff [1000, 900, 50, 40, 5] 30 = 4
    ∧ transitionCount 1 4 2 = 1
    ∧ selectBarcodes [1000, 900, 50, 40, 5] 2 30 1 emptyCountsPrior false false
        = ([0, 1, 2], [3])
    ∧ 4 ∉ ([0, 1, 2] : List Nat) ∧ 4 ∉ ([3] : List Nat) := by
  refine ⟨by decide, by decide, by decide, ?_, by decide, by decide⟩
  simp only [selectBarcodes, h]
  decide

theorem scenario_selection_spec_witness :
    effectiveCutoff 30 30 = 30
    ∧ selectBarcodes [1000, 900, 50, 40, 5] 2 30 1 30 false false
        = ([0, 1, 2], [3]) :=
  ⟨by decide, (scenario_selection_spec 30 (by decide)).2.2.2.1⟩

theorem disjoint_take_append_take_drop {l : List Nat} (h : l.Nodup)
    (a b c : Nat) :
    List.Disjoint (l.take a ++ (l.drop a).take b) ((l.drop (a + b)).take c) := by
  intro x hx hx'
  have h1 : x ∈ l.take (a + b) := by
    rw [List.take_add]; exact hx
  have h2 : x ∈ l.drop (a + b) := (List.take_sublist _ _).subset hx'
  exact List.disjoint_take_drop h le_rfl h1 h2

/-- C2: for every input matrix, model kind and parameter setting (fault
path included), the analyzed and empty barcode index sets returned by
barcode selection are disjoint. -/
theorem analyzed_empty_disjoint (matrix : List (List Nat))
    (nCellsPrior lowCutoff numTransition emptyCountsPrior : Nat)
    (simple fault : Bool) :
    List.Disjoint
      (selectBarcodes (umiCounts matrix) nCellsPrior lowCutoff numTransition
        emptyCountsPrior simple fault).1
      (selectBarcodes (umiCounts matrix) nCellsPrior lowCutoff numTransition
        emptyCountsPrior simple fault).2 := by
  have hnd := umiCountOrder_nodup (umiCounts matrix)
  simp only [selectBarcodes]
  cases simple with
  | true => simp [List.Disjoint]
  | false =>
    cases fault with
    | true => simp [List.Disjoint]
    | false =>
      simp only [Bool.false_eq_true, if_false]
      split
      · intro x _ hx'
        exact absurd hx' (List.not_mem_nil x)
      · exact disjoint_take_append_take_drop hnd _ _ _

/-- Modelled from the spec text of rankBarcodes: a stable sort of barcode
indices by total row count, descending, ties broken by original index.
This is the specification-side ranking, to be compared with umiCountOrder,
which embeds the code. -/
def specRankLE (counts : List Nat) (i j : Nat) : Prop :=
  counts.getD j 0 < counts.getD i 0 ∨ (counts.getD i 0 = counts.getD j 0 ∧ i ≤ j)

instance (counts : List Nat) : DecidableRel (specRankLE counts) := fun _ _ =>
  inferInstanceAs (Decidable (_ ∨ _))

/-- The ranking the spec describes: indices 0..n-1 sorted by descending
count, ties broken by ascending original index. -/
def specRankOrder (counts : List Nat) : List Nat :=
  List.insertionSort (specRankLE counts) (List.range counts.length)

/-- C3 counterexample: with equal totals [5, 5], the code (the reversal of a
stable ascending argsort) ranks barcode 1 before barcode 0, while the spec
ranking with ties broken by original index is [0, 1]. -/
theorem rank_tie_counterexample :
    umiCountOrder [5, 5] = [1, 0] ∧ specRankOrder [5, 5] = [0, 1]
    ∧ umiCountOrder [5, 5] ≠ specRankOrder [5, 5] := by decide

/-- C3 amended: the ranking is descending by total count and fully
deterministic, but ties among equal totals are broken by descending
original index: the rank order equals the unique sort of 0..n-1 by the
strictly descending (count, index) lexicographic key. -/
theorem umiCountOrder_eq_descending_sort (counts : List Nat) :
    umiCountOrder counts
      = List.insertionSort (rankGE counts) (List.range counts.length) := by
  apply List.eq_of_perm_of_sorted (r := rankGE counts)
  · exact (umiCountOrder_perm counts).trans (List.perm_insertionSort _ _).symm
  · have hs : List.Sorted (rankLE counts)
        (List.insertionSort (rankLE counts) (List.range counts.length)) :=
      List.sorted_insertionSort _ _
    exact List.pairwise_reverse.mpr hs
  · exact List.sorted_insertionSort _ _

/-- get_d_priors_from_dataset (lines 710-779), returning the pair
(cell_counts, empty_counts).  The simple branch (lines 742-753) estimates
the cell size by a median and fixes empty_counts = 0; the ambient branch
(lines 756-775) estimates both sizes by mode/median statistics of
floating-point log1p counts.  The three size estimates themselves are
transcendental floating-point statistics, abstracted here as parameters;
the branch structure and the hard-coded zero follow the source. -/
def getDPriors (simple : Bool)
    (simpleCellEstimate cellEstimate emptyEstimate : Int) : Int × Int :=
  if simple then (simpleCellEstimate, 0) else (cellEstimate, emptyEstimate)

/-- C4: for the simple model, barcode selection returns the top nCellsPrior
ranked barcodes (the clamp at line 154 being the identity whenever the prior
does not exceed the number of barcodes with nonzero counts) together with an
empty empty-droplet set, and the count-distribution prior estimator returns
empty_counts = 0 regardless of the abstracted size estimates. -/
theorem simple_model_selection (matrix : List (List Nat))
    (nCellsPrior lowCutoff numTransition emptyCountsPrior : Nat) (fault : Bool)
    (sce ce ee : Int)
    (h : nCellsPrior ≤ numNonzeroBarcodes (umiCounts matrix)) :
    selectBarcodes (umiCounts matrix) nCellsPrior lowCutoff numTransition
        emptyCountsPrior true fault
      = ((umiCountOrder (umiCounts matrix)).take nCellsPrior, [])
    ∧ (getDPriors true sce ce ee).2 = 0 := by
  constructor
  · simp [selectBarcodes, Nat.min_eq_left h]
  · rfl

theorem simple_model_selection_witness :
    selectBarcodes (umiCounts [[2], [1], [3]]) 2 30 7000 0 true false
      = ((umiCountOrder (umiCounts [[2], [1], [3]])).take 2, [])
    ∧ (getDPriors true 5 7 9).2 = 0 :=
  simple_model_selection [[2], [1], [3]] 2 30 7000 0 false 5 7 9 (by decide)

/-- Gene selection (lines 158-169): np.where yields the ascending indices of
genes with a positive column total; when the blacklist is nonempty those
indices on the blacklist are then removed (lines 164-169). -/
def selectGenes (matrix : List (List Nat)) (blacklist : List Nat) : List Nat :=
  if 0 < blacklist.length then
    ((List.range (numGenes matrix)).filter
        (fun j => decide (0 < colSum matrix j))).filter
      (fun j => decide (j ∉ blacklist))
  else
    (List.range (numGenes matrix)).filter (fun j => decide (0 < colSum matrix j))

/-- Gene selection including the try/except IndexError of lines 156-172: the
handler only logs, so on a fault the default arange(matrix.shape[1]) set at
line 150 is retained and the pipeline continues. -/
def selectGenesResult (matrix : List (List Nat)) (blacklist : List Nat)
    (fault : Bool) : List Nat :=
  if fault then List.range (numGenes matrix) else selectGenes matrix blacklist

/-- C5: without a fault, the analyzed gene indices are strictly ascending,
unique, exclude every blacklisted index and every gene whose column sum is
zero; on an indexing fault the full gene range is retained (selection is
total, never fatal). -/
theorem gene_selection_spec (matrix : List (List Nat)) (blacklist : List Nat)
    (fault : Bool) :
    (fault = false →
      (selectGenesResult matrix blacklist fault).Sorted (· < ·)
      ∧ (selectGenesResult matrix blacklist fault).Nodup
      ∧ (∀ b ∈ blacklist, b ∉ selectGenesResult matrix blacklist fault)
      ∧ (∀ j, colSum matrix j = 0 → j ∉ selectGenesResult matrix blacklist fault))
    ∧ (fault = true →
      selectGenesResult matrix blacklist fault = List.range (numGenes matrix)) := by
  constructor
  · rintro rfl
    show (selectGenes matrix blacklist).Sorted (· < ·)
      ∧ (selectGenes matrix blacklist).Nodup
      ∧ (∀ b ∈ blacklist, b ∉ selectGenes matrix blacklist)
      ∧ (∀ j, colSum matrix j = 0 → j ∉ selectGenes matrix blacklist)
    by_cases hb : 0 < blacklist.length
    · simp only [selectGenes, if_pos hb]
      refine ⟨((List.sorted_lt_range _).filter _).filter _,
              ((List.nodup_range _).filter _).filter _, ?_, ?_⟩
      · intro b hbmem hmem
        rcases List.mem_filter.mp hmem with ⟨_, hdec⟩
        exact of_decide_eq_true hdec hbmem
      · intro j hj hmem
        rcases List.mem_filter.mp hmem with ⟨hmem', _⟩
        rcases List.mem_filter.mp hmem' with ⟨_, hdec⟩
        have := of_decide_eq_true hdec
        omega
    · simp only [selectGenes, if_neg hb]
      refine ⟨(List.sorted_lt_range _).filter _,
              (List.nodup_range _).filter _, ?_, ?_⟩
      · intro b hbmem _
        rcases List.length_eq_zero.mp (by omega : blacklist.length = 0)
        cases hbmem
      · intro j hj hmem
        rcases List.mem_filter.mp hmem with ⟨_, hdec⟩
        have := of_decide_eq_true hdec
        omega
  · rintro rfl
    rfl

theorem gene_selection_spec_witness :
    2 ∉ selectGenesResult [[1, 0, 2], [0, 0, 3]] [2] false
    ∧ selectGenesResult [[1, 0, 2], [0, 0, 3]] [2] true = List.range 3 :=
  ⟨(gene_selection_spec [[1, 0, 2], [0, 0, 3]] [2] false).1 rfl |>.2.2.1 2
    (by decide),
   (gene_selection_spec [[1, 0, 2], [0, 0, 3]] [2] true).2 rfl⟩

/-- The priors populated by the ambient-aware branch of
Dataset._estimate_priors (lines 263-280).  cell_logit_arg is the exact
rational argument of the logarithm whose value the code stores as
cell_logit. -/
structure AmbientPriors where
  cell_prob : ℚ
  cell_logit_arg : ℚ
deriving DecidableEq

/-- cell_prob as computed at lines 267-268:
(1 - fraction_empties) * (n_cells / analyzed_barcode_inds.size), in exact
rational arithmetic in place of IEEE doubles. -/
def cellProb (fractionEmpties : ℚ) (nCells analyzedSize : Nat) : ℚ :=
  (1 - fractionEmpties) * ((nCells : ℚ) / (analyzedSize : ℚ))

/-- The ambient-aware branch of Dataset._estimate_priors (lines 263-280):
the two asserts on cell_prob propagate (modelled as Except.error), aborting
the run; otherwise the priors record is populated, storing cell_prob and
cell_logit = log(cell_prob / (1 - cell_prob)). -/
def estimateAmbientPriors (fractionEmpties : ℚ) (nCells analyzedSize : Nat) :
    Except String AmbientPriors :=
  let p := cellProb fractionEmpties nCells analyzedSize
  if p ≤ 0 then
    .error "Fraction of trimmed dataset containing cells should be > 0"
  else if 1 < p then
    .error "Fraction of trimmed dataset containing cells should be at most 1"
  else
    .ok ⟨p, p / (1 - p)⟩

/-- C6: the ambient-aware prior derivation computes
cell_prob = (1 - fractionEmpties) * (nCells / analyzedSize), fails fatally
exactly when cell_prob is outside (0, 1], and otherwise also sets
cell_logit = ln(cell_prob / (1 - cell_prob)). -/
theorem cell_prob_validation (fe : ℚ) (n s : Nat) :
    ((estimateAmbientPriors fe n s).isOk = true
      ↔ (0 < cellProb fe n s ∧ cellProb fe n s ≤ 1))
    ∧ (∀ r, estimateAmbientPriors fe n s = .ok r →
        r.cell_prob = (1 - fe) * ((n : ℚ) / (s : ℚ))
        ∧ Real.log ((r.cell_logit_arg : ℚ) : ℝ)
            = Real.log (((r.cell_prob : ℚ) : ℝ) / (1 - ((r.cell_prob : ℚ) : ℝ)))) := by
  simp only [estimateAmbientPriors]
  constructor
  · split
    · rename_i h
      simp only [Except.isOk, Except.toBool, Bool.false_eq_true, false_iff,
        not_and]
      intro h1 _
      linarith
    · split
      · rename_i h h'
        simp only [Except.isOk, Except.toBool, Bool.false_eq_true, false_iff,
          not_and]
        intro _ h2
        linarith
      · rename_i h h'
        simp only [Except.isOk, Except.toBool, true_iff]
        exact ⟨lt_of_not_le h, le_of_not_lt h'⟩
  · intro r hr
    split at hr
    · cases hr
    · split at hr
      · cases hr
      · cases hr
        refine ⟨rfl, ?_⟩
        push_cast
        rfl

theorem cell_prob_validation_witness :
    (estimateAmbientPriors (1/2) 1 2).isOk = true :=
  (cell_prob_validation (1/2) 1 2).1.mpr (by constructor <;> norm_num [cellProb])

/-- write_matrix_to_h5 (lines 606-707), reduced to the facts it branches on:
whether the matrix argument is in compressed-sparse-column form, the
gene-name and barcode array sizes, the (pre-transpose) matrix shape, and
whether the HDF5 write itself faults.  The result pairs a flag recording
whether the filesystem was touched with the outcome: the three asserts
(lines 643-653) raise (Except.error) before any file is opened, and the
try/except around the write (lines 659-707) converts any write fault into a
plain False return (True on success). -/
def writeMatrixToH5 (isCSC : Bool) (numGeneNames numBarcodes numRows numCols : Nat)
    (writeFault : Bool) : Bool × Except String Bool :=
  if !isCSC then
    (false, .error "The count matrix must be csc_matrix format")
  else if numGeneNames ≠ numCols then
    (false, .error "The number of gene names must match the count matrix")
  else if numBarcodes ≠ numRows then
    (false, .error "The number of barcodes must match the count matrix")
  else
    (true, if writeFault then .ok false else .ok true)

/-- C7: the serializer raises exactly when a precondition is violated (matrix
not CSC, gene-name count differing from the gene dimension, or barcode count
differing from the row count), raising happens before the filesystem is
touched, and when the preconditions hold no write fault propagates: the
function returns False on a faulted write and True on success. -/
theorem write_matrix_error_behavior (csc : Bool) (gn bs rows cols : Nat)
    (fault : Bool) :
    ((writeMatrixToH5 csc gn bs rows cols fault).2.isOk = false
      ↔ (csc = false ∨ gn ≠ cols ∨ bs ≠ rows))
    ∧ ((writeMatrixToH5 csc gn bs rows cols fault).2.isOk = false →
      (writeMatrixToH5 csc gn bs rows cols fault).1 = false)
    ∧ (csc = true → gn = cols → bs = rows →
      writeMatrixToH5 csc gn bs rows cols fault = (true, .ok (!fault))) := by
  cases csc <;> cases fault <;>
    simp only [writeMatrixToH5, Bool.not_false, Bool.not_true, if_true,
      if_false, Bool.false_eq_true, Bool.true_eq_false, ite_true, ite_false] <;>
    by_cases h1 : gn = cols <;> by_cases h2 : bs = rows <;>
    simp_all [Except.isOk, Except.toBool]

theorem write_matrix_error_behavior_witness :
    writeMatrixToH5 true 1 2 2 1 false = (true, .ok true) :=
  (write_matrix_error_behavior true 1 2 2 1 false).2.2 rfl rfl rfl

/-- Per-gene totals of a list of rows, matrix.sum(axis=0) over the first g
columns, as exact rationals (lines 862 and 873). -/
def geneTotals (rows : List (List Nat)) (g : Nat) : List ℚ :=
  (List.range g).map (fun j => (colSum rows j : ℚ))

/-- Add the small floor ep to every entry and normalize to total 1
(lines 864-867 and 875-878): gene_expression = gene_expression + ep, then
divide by its sum. -/
def floorAndNormalize (v : List ℚ) (ep : ℚ) : List ℚ :=
  (v.map (fun x => x + ep)).map (fun x => x / (v.map (fun x => x + ep)).sum)

/-- estimate_chi_from_dataset (lines 825-880): the empty partition consists
of the trimmed rows with log(rowSum) < log_counts_crossover, expressed here
through the threshold tau standing for exp(log_counts_crossover), since
log x < c iff x < exp c for positive x and a zero row total (log 0 = -inf)
is below every crossover.  chi_ambient is the floored and normalized
per-gene total over that partition; chi_bar the same over the full
(barcode-unrestricted, gene-trimmed) matrix.  ep is the machine epsilon of
the working precision, np.finfo(np.float32).eps (line 852). -/
def estimateChi (trimmed full : List (List Nat)) (g : Nat) (tau ep : ℚ) :
    List ℚ × List ℚ :=
  let empties := trimmed.filter (fun row => decide ((row.sum : ℚ) < tau))
  (floorAndNormalize (geneTotals empties g) ep,
   floorAndNormalize (geneTotals full g) ep)

theorem floorAndNormalize_sum {v : List ℚ} {ep : ℚ}
    (hv : ∀ x ∈ v, 0 ≤ x) (hep : 0 < ep) (hlen : 0 < v.length) :
    (floorAndNormalize v ep).sum = 1 := by
  have hpos : 0 < (v.map (fun x => x + ep)).sum := by
    apply List.sum_pos
    · intro x hx
      rcases List.mem_map.mp hx with ⟨y, hy, rfl⟩
      have := hv y hy
      linarith
    · intro hcon
      rw [List.map_eq_nil_iff] at hcon
      subst hcon
      simp at hlen
  unfold floorAndNormalize
  simp only [div_eq_mul_inv]
  rw [List.sum_map_mul_right, List.map_id']
  exact mul_inv_cancel₀ (ne_of_gt hpos)

/-- C8: the ambient-profile estimator returns vectors chi_ambient and
chi_bar that each sum to exactly 1 (in exact arithmetic; within floating
tolerance in the IEEE source), for any positive floor and nonempty gene
range. -/
theorem chi_normalization (trimmed full : List (List Nat)) (g : Nat)
    (tau ep : ℚ) (hep : 0 < ep) (hg : 0 < g) :
    (estimateChi trimmed full g tau ep).1.sum = 1
    ∧ (estimateChi trimmed full g tau ep).2.sum = 1 := by
  constructor <;>
    refine floorAndNormalize_sum ?_ hep (by simpa [geneTotals]) <;>
    · intro x hx
      rcases List.mem_map.mp hx with ⟨j, _, rfl⟩
      positivity

theorem chi_normalization_witness :
    (estimateChi [[1, 0], [2, 3]] [[1, 0], [2, 3], [0, 4]] 2 2
        (1 / 8388608)).1.sum = 1
    ∧ (estimateChi [[1, 0], [2, 3]] [[1, 0], [2, 3], [0, 4]] 2 2
        (1 / 8388608)).2.sum = 1 :=
  chi_normalization [[1, 0], [2, 3]] [[1, 0], [2, 3], [0, 4]] 2 2
    (1 / 8388608) (by norm_num) (by norm_num)

/-- Dataset.save_to_output_file (lines 344-526) as its exception and return
control flow.  hasCells records np.sum(p > 0.5) > 0; the assert at line 415
runs only when the latent p is present, i.e. for ambient-aware models.  The
full-result write at line 426 sets write_succeeded; the filtered write at
line 451 (ambient-aware models only) has its returned flag discarded (an
assertion failure inside it still propagates); the plotting block
(lines 471-524) runs inside try/except, plotFault marking an exception
there, which is caught and logged.  The returned value is write_succeeded. -/
def saveToOutputFile (simple savePlots hasCells : Bool)
    (fullCSC : Bool) (fullGn fullBs fullRows fullCols : Nat) (fullFault : Bool)
    (filtCSC : Bool) (filtGn filtBs filtRows filtCols : Nat) (filtFault : Bool)
    (plotFault : Bool) : Except String Bool := do
  if !simple && !hasCells then
    throw "Found no cells."
  let writeSucceeded ←
    (writeMatrixToH5 fullCSC fullGn fullBs fullRows fullCols fullFault).2
  if !simple then
    let _ ← (writeMatrixToH5 filtCSC filtGn filtBs filtRows filtCols filtFault).2
  let _plotSaved : Bool := if savePlots && plotFault then false else true
  return writeSucceeded

/-- C9: the boolean returned by save_to_output_file reflects only the
success flag of the full-result write: under the preconditions of both
writes (and a cell present for ambient-aware models), the function returns
the full-write flag for every filtered-write fault and plotting fault. -/
theorem save_returns_full_write_flag (simple savePlots hasCells : Bool)
    (fullGn fullBs fullRows fullCols : Nat) (fullFault : Bool)
    (filtGn filtBs filtRows filtCols : Nat) (filtFault plotFault : Bool)
    (hcells : simple = true ∨ hasCells = true)
    (h2 : fullGn = fullCols) (h3 : fullBs = fullRows)
    (h5 : filtGn = filtCols) (h6 : filtBs = filtRows) :
    saveToOutputFile simple savePlots hasCells true fullGn fullBs fullRows
        fullCols fullFault true filtGn filtBs filtRows filtCols filtFault
        plotFault = .ok (!fullFault) := by
  subst h2 h3 h5 h6
  cases simple with
  | true =>
    cases fullFault <;> cases filtFault <;>
      simp [saveToOutputFile, writeMatrixToH5]
  | false =>
    rcases hcells with h | h
    · exact Bool.noConfusion h
    · subst h
      cases fullFault <;> cases filtFault <;>
        simp [saveToOutputFile, writeMatrixToH5] <;> rfl

theorem save_returns_full_write_flag_witness :
    saveToOutputFile false false true true 1 2 2 1 false true 1 1 1 1 true
      false = .ok true :=
  save_returns_full_write_flag false false true 1 2 2 1 false 1 1 1 1 true
    false (Or.inr rfl) rfl rfl rfl rfl

/-- Submatrix extraction matrix[rows][:, cols], as used by get_count_matrix
(lines 286-304) and get_count_matrix_all_barcodes (lines 325-342). -/
def submatrix (matrix : List (List Nat)) (rows cols : List Nat) :
    List (List Nat) :=
  rows.map (fun i => cols.map (fun j => (matrix.getD i []).getD j 0))

/-- The priors dict entries this core reads and writes (lines 74, 175 and
252-284).  log_counts_crossover and d_std are floating log-space scalars;
the crossover is carried through crossover_tau, its exponential, which is
what every downstream comparison uses (see estimateChi), and cell_logit
through the exact rational argument of its logarithm. -/
structure Priors where
  n_cells : Nat
  cell_counts : Int
  empty_counts : Int
  crossover_tau : ℚ
  cell_prob : ℚ
  cell_logit_arg : ℚ
  chi_ambient : List ℚ
  chi_bar : List ℚ
deriving DecidableEq

/-- The Dataset object state this core manipulates (lines 55-99): the
loaded data (matrix, barcodes, gene_names, kept in the data dict in the
source) and the derived trimming and prior state. -/
structure DatasetState where
  matrix : List (List Nat)
  barcodes : List String
  gene_names : List String
  model_name : String
  analyzed_barcode_inds : List Nat
  empty_barcode_inds : List Nat
  analyzed_gene_inds : List Nat
  is_trimmed : Bool
  priors : Priors
deriving DecidableEq

/-- Dataset._trim_dataset_for_analysis (lines 113-246) as a state
transformer: selects the analyzed gene indices, stores the cell and empty
count priors (line 175; the floating size estimates abstracted as the last
three parameters, with the empty estimate feeding the empirical cutoff of
lines 194-196), selects the analyzed and empty barcode indices, and sets
is_trimmed.  geneFault and barcodeFault model IndexError in the two try
blocks. -/
def trimDatasetForAnalysis (ds : DatasetState) (lowCutoff numTransition : Nat)
    (blacklist : List Nat) (geneFault barcodeFault : Bool)
    (sce ce ee : Int) : DatasetState :=
  let counts := umiCounts ds.matrix
  let simple := ds.model_name == "simple"
  let geneInds := selectGenesResult ds.matrix blacklist geneFault
  let dp := getDPriors simple sce ce ee
  let bc := selectBarcodes counts ds.priors.n_cells lowCutoff numTransition
    dp.2.toNat simple barcodeFault
  { ds with
    analyzed_gene_inds := geneInds
    analyzed_barcode_inds := bc.1
    empty_barcode_inds := bc.2
    priors := { ds.priors with cell_counts := dp.1, empty_counts := dp.2 }
    is_trimmed := true }

/-- Dataset._estimate_priors (lines 248-284) as a state transformer: stores
the crossover statistic (through its exponential, crossover_tau); for
ambient-aware models it additionally validates cell_prob (the asserts
propagate as Except.error), and stores the cell probability, the logit
argument and the ambient profile of estimate_chi_from_dataset.  d_std
(lines 256-261) is a further log-space scalar written to the same priors
record with no downstream read in this core. -/
def estimatePriorsStep (ds : DatasetState) (fractionEmpties tau ep : ℚ) :
    Except String DatasetState :=
  let pri := { ds.priors with crossover_tau := tau }
  if ds.model_name == "simple" then
    .ok { ds with priors := pri }
  else
    match estimateAmbientPriors fractionEmpties pri.n_cells
        ds.analyzed_barcode_inds.length with
    | .error e => .error e
    | .ok r =>
      let trimmed := submatrix ds.matrix ds.analyzed_barcode_inds
        ds.analyzed_gene_inds
      let full := submatrix ds.matrix (List.range ds.matrix.length)
        ds.analyzed_gene_inds
      let chi := estimateChi trimmed full ds.analyzed_gene_inds.length tau ep
      .ok { ds with priors := { pri with
              cell_prob := r.cell_prob,
              cell_logit_arg := r.cell_logit_arg,
              chi_ambient := chi.1,
              chi_bar := chi.2 } }

/-- C10: trimming and prior estimation never modify the loaded data: the
matrix, the barcodes and the gene names are exactly the loaded values after
both Dataset._trim_dataset_for_analysis and Dataset._estimate_priors, which
write only the index sets, the is_trimmed flag and the priors record. -/
theorem trim_priors_preserve_data (ds : DatasetState)
    (lowCutoff numTransition : Nat) (blacklist : List Nat)
    (geneFault barcodeFault : Bool) (sce ce ee : Int)
    (fe tau ep : ℚ) (ds'' : DatasetState)
    (hok : estimatePriorsStep
        (trimDatasetForAnalysis ds lowCutoff numTransition blacklist geneFault
          barcodeFault sce ce ee) fe tau ep = .ok ds'') :
    ((trimDatasetForAnalysis ds lowCutoff numTransition blacklist geneFault
        barcodeFault sce ce ee).matrix = ds.matrix
      ∧ (trimDatasetForAnalysis ds lowCutoff numTransition blacklist geneFault
          barcodeFault sce ce ee).barcodes = ds.barcodes
      ∧ (trimDatasetForAnalysis ds lowCutoff numTransition blacklist geneFault
          barcodeFault sce ce ee).gene_names = ds.gene_names)
    ∧ ds''.matrix = ds.matrix ∧ ds''.barcodes = ds.barcodes
    ∧ ds''.gene_names = ds.gene_names := by
  refine ⟨⟨rfl, rfl, rfl⟩, ?_⟩
  unfold estimatePriorsStep at hok
  split at hok
  · cases hok
    exact ⟨rfl, rfl, rfl⟩
  · dsimp only at hok
    split at hok
    · cases hok
    · cases hok
      exact ⟨rfl, rfl, rfl⟩

/-- A small concrete simple-model dataset for the C10 witness. -/
def witnessDataset : DatasetState :=
  { matrix := [[2, 0], [1, 1], [0, 0]]
    barcodes := ["AAA", "AAC", "AAG"]
    gene_names := ["g0", "g1"]
    model_name := "simple"
    analyzed_barcode_inds := []
    empty_barcode_inds := []
    analyzed_gene_inds := []
    is_trimmed := false
    priors := { n_cells := 2, cell_counts := 0, empty_counts := 0,
                crossover_tau := 0, cell_prob := 0, cell_logit_arg := 0,
                chi_ambient := [], chi_bar := [] } }

/-- The trimmed witness dataset. -/
def witnessTrimmed : DatasetState :=
  trimDatasetForAnalysis witnessDataset 30 1 [] false false 5 7 9

/-- The witness dataset after prior estimation. -/
def witnessFinal : DatasetState :=
  { witnessTrimmed with
    priors := { witnessTrimmed.priors with crossover_tau := 3 } }

theorem trim_priors_preserve_data_witness :
    (witnessTrimmed.matrix = witnessDataset.matrix
      ∧ witnessTrimmed.barcodes = witnessDataset.barcodes
      ∧ witnessTrimmed.gene_names = witnessDataset.gene_names)
    ∧ witnessFinal.matrix = witnessDataset.matrix
    ∧ witnessFinal.barcodes = witnessDataset.barcodes
    ∧ witnessFinal.gene_names = witnessDataset.gene_names :=
  trim_priors_preserve_data witnessDataset 30 1 [] false false 5 7 9
    (1/2) 3 1 witnessFinal rfl

end CellBender
